import Mathlib

/-!
Shallow embedding of the kinderdisco modulation engine
(src/app.rs and src/main.rs) and proofs about it.

Machine integers (`u8`, `u16`) are modelled as `Nat` with explicit
reduction modulo `2 ^ w` at the points where Rust release-mode wrapping
arithmetic applies.  The random source is abstracted as a stream
`Nat → Nat` of raw draws together with a cursor: each `rng.read::<T>()`
in the source consumes one stream position and its value is reduced
modulo `2 ^ w` for a `w`-bit type.  Async loops are embedded by their
loop bodies (one cycle = the synchronous block holding the config read
lock, followed by the sleep) plus an explicit trace/transition system.
-/

/-- `SyncMode` from app.rs lines 16-21. -/
inductive SyncMode where
  | none
  | time
  | timeAndColor
  deriving DecidableEq

/-- Half-open integer range, core::ops::Range as used by the source.
The field `stop` stands for the Rust field `end`, a reserved word in Lean. -/
structure NRange where
  start : Nat
  stop : Nat
  deriving DecidableEq

/-- `rand_range` from app.rs lines 54-70, instantiated at an unsigned
integer type of bit width `w`, under Rust release-mode wrapping
arithmetic: `span = range.end - range.start` wraps modulo `2 ^ w`; when
the span is zero the function returns `range.start`, otherwise
`range.start + (rng.read::<T>() % span)` (the addition again wrapping).
`v` is the raw value produced by the random source for this draw. -/
def rand_range (w : Nat) (v : Nat) (r : NRange) : Nat :=
  let span := (r.stop + 2 ^ w - r.start) % 2 ^ w
  if span = 0 then r.start else (r.start + v % 2 ^ w % span) % 2 ^ w

/-- `Data` from app.rs lines 22-29: three 8-bit colour channel ranges, a
16-bit timing range (in 100 ms ticks) and the fade flag. -/
structure Data where
  r : NRange
  g : NRange
  b : NRange
  time : NRange
  fade : Bool
  deriving DecidableEq

/-- `Data::default` from app.rs lines 31-41. -/
def Data.default : Data :=
  ⟨⟨0, 255⟩, ⟨0, 255⟩, ⟨0, 255⟩, ⟨1, 10⟩, false⟩

/-- One `bridge.set_light_state(light_id, modifier)` dispatch: the light id
it is addressed to and the `StateModifier` built for it (on flag, RGB
colour, transition time in ticks). -/
structure Cmd where
  light : String
  is_on : Bool
  r : Nat
  g : Nat
  b : Nat
  transition : Nat
  deriving DecidableEq

/-- The body of one iteration of the `modify_lights_same_color` loop
(app.rs lines 74-93).  Inside the block holding the `data` read lock the
code draws one `time` from `data.time` (u16), computes the transition
time (`time` when fading, else 0), draws one `r`, `g`, `b` (u8, in that
argument order), builds a single modifier and dispatches it to every
bound light; it then sleeps `time` ticks.  Returns the dispatched
commands, the sleep duration in ticks, and the advanced rng cursor. -/
def modify_lights_same_color_cycle (d : Data) (light_ids : List String)
    (stream : Nat → Nat) (i : Nat) : List Cmd × Nat × Nat :=
  let time := rand_range 16 (stream i) d.time
  let transition_time := if d.fade then time else 0
  let rv := rand_range 8 (stream (i + 1)) d.r
  let gv := rand_range 8 (stream (i + 2)) d.g
  let bv := rand_range 8 (stream (i + 3)) d.b
  (light_ids.map (fun l => ⟨l, true, rv, gv, bv, transition_time⟩), time, i + 4)

/-- The per-light command construction inside one iteration of the
`modify_lights_different_colors` loop (app.rs lines 114-124): for each
bound light in order, draw fresh `r`, `g`, `b` and dispatch a modifier
carrying the cycle's shared transition time. -/
def modify_lights_different_colors_cmds (d : Data) (transition_time : Nat)
    (stream : Nat → Nat) : List String → Nat → List Cmd
  | [], _ => []
  | l :: ls, i =>
    ⟨l, true, rand_range 8 (stream i) d.r, rand_range 8 (stream (i + 1)) d.g,
      rand_range 8 (stream (i + 2)) d.b, transition_time⟩ ::
      modify_lights_different_colors_cmds d transition_time stream ls (i + 3)

/-- The body of one iteration of the `modify_lights_different_colors` loop
(app.rs lines 108-127): one `time` draw shared by the whole cycle, then
per-light colour draws, then a single sleep of `time` ticks for the task. -/
def modify_lights_different_colors_cycle (d : Data) (light_ids : List String)
    (stream : Nat → Nat) (i : Nat) : List Cmd × Nat × Nat :=
  let time := rand_range 16 (stream i) d.time
  let transition_time := if d.fade then time else 0
  (modify_lights_different_colors_cmds d transition_time stream light_ids (i + 1),
    time, i + 1 + 3 * light_ids.length)

/-- Which loop body a spawned task runs. -/
inductive TaskBody where
  | sameColor
  | differentColors
  deriving DecidableEq

/-- A spawned modulation task: the loop body selected at spawn time and the
fixed list of light ids bound to it. -/
structure TaskSpec where
  body : TaskBody
  light_ids : List String
  deriving DecidableEq

/-- `Modulator::new` (app.rs lines 132-156): `SyncMode::TimeAndColor`
selects `modify_lights_same_color`; every other mode (`None` and `Time`)
falls through the `_` arm to `modify_lights_different_colors`. -/
def Modulator.new (sync_mode : SyncMode) (light_ids : List String) : TaskSpec :=
  match sync_mode with
  | SyncMode.timeAndColor => ⟨TaskBody.sameColor, light_ids⟩
  | _ => ⟨TaskBody.differentColors, light_ids⟩

/-- The slice of `App` state (app.rs lines 166-178) that
`rebuild_modulators` reads and writes: the known lights with their on/off
intent (the source keys a `HashMap` by `unique_id` and binds tasks to
`light.id`; we model one id per light), the sync mode, whether a bridge
is connected, and the currently running modulators. -/
structure AppState where
  lights : List (String × Bool)
  sync_mode : SyncMode
  bridge : Bool
  modulators : List TaskSpec
  deriving DecidableEq

/-- The ids of the lights currently flagged on, as collected by
app.rs lines 290-295 (filter on `light.on`, map to `light.id`). -/
def on_ids (lights : List (String × Bool)) : List String :=
  (lights.filter (fun l => l.2)).map (fun l => l.1)

/-- `App::rebuild_modulators` (app.rs lines 287-317): `clear()` drops every
running `Modulator` (dropping the oneshot sender resolves the receiver,
cancelling the task), then, when a bridge is present, `SyncMode::None`
spawns one task per on-light and any other mode spawns a single task
bound to the whole on-group. -/
def rebuild_modulators (s : AppState) : AppState :=
  if s.bridge then
    { s with modulators :=
        match s.sync_mode with
        | SyncMode.none =>
          (on_ids s.lights).map (fun l => Modulator.new SyncMode.none [l])
        | _ => [Modulator.new s.sync_mode (on_ids s.lights)] }
  else { s with modulators := [] }

/-- `update_start` from main.rs lines 24-29:
`range.start = min(range.start, range.end)`. -/
def update_start (r : NRange) : NRange :=
  ⟨min r.start r.stop, r.stop⟩

/-- `update_end` from main.rs lines 31-36:
`range.end = max(range.start, range.end)`. -/
def update_end (r : NRange) : NRange :=
  ⟨r.start, max r.start r.stop⟩

/-- One UI slider edit of a range (main.rs `draw_connected`, lines 79-129):
writing the min slider stores the new start and then calls `update_end`;
writing the max slider stores the new end and then calls `update_start`. -/
inductive RangeEdit where
  | setMin (v : Nat)
  | setMax (v : Nat)
  deriving DecidableEq

/-- Apply one slider edit as wired in main.rs `draw_connected`. -/
def apply_edit (r : NRange) : RangeEdit → NRange
  | RangeEdit.setMin v => update_end ⟨v, r.stop⟩
  | RangeEdit.setMax v => update_start ⟨r.start, v⟩

/-- Apply a sequence of slider edits in order. -/
def apply_edits (r : NRange) (es : List RangeEdit) : NRange :=
  es.foldl apply_edit r

/-- The cycle body a task with the given `TaskBody` runs. -/
def cycle_of : TaskBody → Data → List String → (Nat → Nat) → Nat → List Cmd × Nat × Nat
  | TaskBody.sameColor => modify_lights_same_color_cycle
  | TaskBody.differentColors => modify_lights_different_colors_cycle

/-- How many raw values one cycle consumes from the random source:
`modify_lights_same_color` always draws time plus one colour triple;
`modify_lights_different_colors` draws time plus one triple per light.
Neither count depends on the configuration. -/
def draw_count : TaskBody → Nat → Nat
  | TaskBody.sameColor, _ => 4
  | TaskBody.differentColors, len => 1 + 3 * len

/-- A task's loop run for a bounded number of cycles, with the config
snapshot it reads at the start of cycle `k` given by `cfgs k` (the value
`update_data` has published into the shared `RwLock` by then; the read
lock is held for the whole block, so one cycle sees exactly one config).
Returns per cycle the dispatched commands and the sleep duration;
`k` is the cycle counter and `i` the rng cursor threaded through. -/
def run_cycles (body : TaskBody) (cfgs : Nat → Data) (light_ids : List String)
    (stream : Nat → Nat) : Nat → Nat → Nat → List (List Cmd × Nat)
  | _, _, 0 => []
  | k, i, n + 1 =>
    ((cycle_of body (cfgs k) light_ids stream i).1,
      (cycle_of body (cfgs k) light_ids stream i).2.1) ::
      run_cycles body cfgs light_ids stream (k + 1)
        ((cycle_of body (cfgs k) light_ids stream i).2.2) n

/-- Where a running task is in its loop: `work k` is the synchronous block
of cycle `k` (sample, build, dispatch — it contains no await point, so it
runs to completion once entered), `sleeping k` is the `task::sleep` await
after cycle `k`'s dispatch, `stopped` means the surrounding
`futures::select!` has completed via the cancellation receiver. -/
inductive Phase where
  | work (k : Nat)
  | sleeping (k : Nat)
  | stopped
  deriving DecidableEq

/-- The observable state of one spawned task (app.rs lines 139-154):
its phase, whether the oneshot cancellation trigger has been signalled
(sending on the channel or dropping the `Modulator`), whether a
post-cancellation wake has already been consumed (see `Step.raceWake`),
and which cycles' dispatch steps have run so far. -/
structure TState where
  phase : Phase
  cancelled : Bool
  raced : Bool
  dispatched : List Nat
  deriving DecidableEq

/-- Small-step semantics of the spawned task of `Modulator::new`
(app.rs lines 139-154).  `doCycle` runs cycle `k`'s synchronous block and
reaches the sleep (it fires even when already cancelled: the block has no
suspension point at which the select could intervene).  `wake` resumes
into the next cycle while not cancelled.  `signal` fires the one-shot
cancellation trigger.  After the signal, the receiver branch of
`futures::select!` is ready, but `select!` polls its branches in
pseudo-random order within each poll: if the sleep timer has already
elapsed when the select is re-polled and the loop branch is polled before
the receiver, the loop resumes and runs one more full cycle — `raceWake`.
Within that same poll the loop branch then returns `Pending` at its next
sleep and the receiver branch, polled next and ready, completes the
select; so at most one cancelled wake can ever occur, recorded by the
`raced` flag, and afterwards the only successor of a sleep is `halt`
(which also models the non-racy polls, where the loop branch returns
`Pending` because its timer has not elapsed, or the receiver is polled
first). -/
inductive Step : TState → TState → Prop where
  | doCycle (k : Nat) (c r : Bool) (d : List Nat) :
      Step ⟨Phase.work k, c, r, d⟩ ⟨Phase.sleeping k, c, r, k :: d⟩
  | wake (k : Nat) (r : Bool) (d : List Nat) :
      Step ⟨Phase.sleeping k, false, r, d⟩ ⟨Phase.work (k + 1), false, r, d⟩
  | signal (p : Phase) (r : Bool) (d : List Nat) :
      Step ⟨p, false, r, d⟩ ⟨p, true, r, d⟩
  | raceWake (k : Nat) (d : List Nat) :
      Step ⟨Phase.sleeping k, true, false, d⟩ ⟨Phase.work (k + 1), true, true, d⟩
  | halt (k : Nat) (r : Bool) (d : List Nat) :
      Step ⟨Phase.sleeping k, true, r, d⟩ ⟨Phase.stopped, true, r, d⟩

/-- Zero or more steps of the task semantics. -/
def Steps : TState → TState → Prop :=
  Relation.ReflTransGen Step

/-- How many of the running modulators have light `l` bound (counting a
task once per occurrence of `l` in its bound list). -/
def bound_count (mods : List TaskSpec) (l : String) : Nat :=
  (mods.map (fun t => t.light_ids.count l)).sum

/-- A reversed range, unreachable through the UI clamps but inside the
domain the claim about `rand_range` quantifies over. -/
def degenerate_range : NRange := ⟨5, 3⟩

/-- A concrete proper range used to instantiate range-sampling theorems. -/
def sample_range : NRange := ⟨10, 20⟩

/-- The identity stream of raw draws, used to instantiate theorems at a
concrete random source. -/
def id_stream : Nat → Nat := fun j => j

/-- Two lights, both flagged on. -/
def two_lights : List (String × Bool) := [("1", true), ("2", true)]

/-- App state with two on-lights in time-only synchronization mode. -/
def app_two_time : AppState := ⟨two_lights, SyncMode.time, true, []⟩

/-- App state with the same two on-lights and no synchronization. -/
def app_two_none : AppState := ⟨two_lights, SyncMode.none, true, []⟩

/-- One on-light and one off-light, no synchronization, bridge connected. -/
def app_mixed_none : AppState := ⟨[("1", true), ("2", false)], SyncMode.none, true, []⟩

/-- App state in time-only mode whose single known light is off. -/
def app_off_time : AppState := ⟨[("3", false)], SyncMode.time, true, []⟩

/-- A second concrete config, differing from the default in every field. -/
def alt_data : Data := ⟨⟨0, 10⟩, ⟨20, 30⟩, ⟨40, 50⟩, ⟨2, 5⟩, true⟩

/-- The reachable-state invariant once the cancellation trigger has fired
during cycle `k`: the task stays cancelled and can still add at most cycle
`k`'s own dispatch (only when the signal arrived inside `k`'s work block)
and, when no post-cancellation wake has happened yet, the dispatch of one
further racy cycle `k + 1`; it never advances past cycle `k + 1`. -/
def CancelInv (s0 : TState) (k : Nat) (x : TState) : Prop :=
  x.cancelled = true ∧
    ((x.phase = Phase.work k ∧ x.raced = s0.raced ∧
        x.dispatched = s0.dispatched ∧ s0.phase = Phase.work k) ∨
      ((x.phase = Phase.sleeping k ∨ x.phase = Phase.stopped) ∧
        x.raced = s0.raced ∧
        (x.dispatched = s0.dispatched ∨
          (x.dispatched = k :: s0.dispatched ∧ s0.phase = Phase.work k))) ∨
      (s0.raced = false ∧ x.raced = true ∧
        ((x.phase = Phase.work (k + 1) ∧
            (x.dispatched = s0.dispatched ∨
              (x.dispatched = k :: s0.dispatched ∧ s0.phase = Phase.work k))) ∨
          ((x.phase = Phase.sleeping (k + 1) ∨ x.phase = Phase.stopped) ∧
            (x.dispatched = (k + 1) :: s0.dispatched ∨
              (x.dispatched = (k + 1) :: k :: s0.dispatched ∧
                s0.phase = Phase.work k))))))

/-- C1, counterexample: the claim says `sample` returns exactly `start` for
every range with `end <= start`, including `end` strictly less than
`start`.  On the range `5..3` with raw draw 1 the code returns 6, not 5:
the unsigned wrapping subtraction `end - start` yields span 254, which is
nonzero, so the degenerate branch is not taken (in a debug build the same
subtraction panics, also contradicting "never errors"). -/
theorem c1_counterexample :
    rand_range 8 1 degenerate_range = 6 ∧ rand_range 8 1 degenerate_range ≠ 5 := by
  decide

/-- C1, amended: for every range with `end = start` (the only degenerate
shape the code's `span.is_zero()` test actually catches), `rand_range`
returns exactly `start`, deterministically, as a total function — for
`end < start` the wrapping span is nonzero and the result is in general
not `start`. -/
theorem c1_amended (w v s : Nat) : rand_range w v ⟨s, s⟩ = s := by
  have h0 : (s + 2 ^ w - s) % 2 ^ w = 0 := by
    rw [Nat.add_sub_cancel_left, Nat.mod_self]
  simp [rand_range, h0]

/-- C7: for every range `[start, end)` with `end > start` (over a `w`-bit
unsigned domain, so `end < 2 ^ w`), `rand_range` returns
`start + (draw % (end - start))` and the result lies in `[start, end)`. -/
theorem c7_in_range (w v : Nat) (r : NRange) (h1 : r.start < r.stop)
    (h2 : r.stop < 2 ^ w) :
    rand_range w v r = r.start + v % 2 ^ w % (r.stop - r.start) ∧
    r.start ≤ rand_range w v r ∧ rand_range w v r < r.stop := by
  have hspan : (r.stop + 2 ^ w - r.start) % 2 ^ w = r.stop - r.start := by
    have he : r.stop + 2 ^ w - r.start = r.stop - r.start + 2 ^ w := by omega
    rw [he, Nat.add_mod_right, Nat.mod_eq_of_lt (by omega)]
  have hlt : v % 2 ^ w % (r.stop - r.start) < r.stop - r.start :=
    Nat.mod_lt _ (by omega)
  have heq : rand_range w v r = r.start + v % 2 ^ w % (r.stop - r.start) := by
    simp only [rand_range, hspan]
    rw [if_neg (by omega), Nat.mod_eq_of_lt (by omega)]
  exact ⟨heq, by omega, by omega⟩

/-- Witness for C7 at the concrete range `10..20` with raw draw 7. -/
theorem c7_witness :
    rand_range 8 7 sample_range
        = sample_range.start + 7 % 2 ^ 8 % (sample_range.stop - sample_range.start) ∧
      sample_range.start ≤ rand_range 8 7 sample_range ∧
      rand_range 8 7 sample_range < sample_range.stop :=
  c7_in_range 8 7 sample_range (by decide) (by decide)

/-- Each single slider edit restores `start <= end`: writing the min clamps
the max up to it, writing the max clamps the min down to it. -/
theorem apply_edit_le (r : NRange) (e : RangeEdit) :
    (apply_edit r e).start ≤ (apply_edit r e).stop := by
  cases e with
  | setMin v =>
    simp only [apply_edit, update_end]
    exact Nat.le_max_left _ _
  | setMax v =>
    simp only [apply_edit, update_start]
    exact Nat.min_le_right _ _

/-- C8: after any nonempty sequence of min/max edits to a range (each edit
setting one endpoint and then applying the clamp rule to the other
endpoint, as wired in `draw_connected`), the invariant `start <= end`
holds. -/
theorem c8_clamp_invariant (r : NRange) (es : List RangeEdit) (h : es ≠ []) :
    (apply_edits r es).start ≤ (apply_edits r es).stop := by
  induction es generalizing r with
  | nil => exact absurd rfl h
  | cons e es ih =>
    cases es with
    | nil => simpa [apply_edits] using apply_edit_le r e
    | cons f fs =>
      simpa [apply_edits] using ih (apply_edit r e) (by simp)

/-- Witness for C8: one min-edit on the (already inverted) range `5..3`. -/
theorem c8_witness :
    (apply_edits ⟨5, 3⟩ [RangeEdit.setMin 7]).start
      ≤ (apply_edits ⟨5, 3⟩ [RangeEdit.setMin 7]).stop :=
  c8_clamp_invariant ⟨5, 3⟩ [RangeEdit.setMin 7] (by simp)

/-- Every command built by the per-light loop of one different-colors cycle
is on, carries the cycle's shared transition time, and its colour is one
fresh sample of each of the r, g, b ranges, drawn from three consecutive
stream positions. -/
theorem mldc_cmds_shape (d : Data) (tr : Nat) (stream : Nat → Nat) :
    ∀ ls i, ∀ c ∈ modify_lights_different_colors_cmds d tr stream ls i,
      c.is_on = true ∧ c.transition = tr ∧
      ∃ j, c.r = rand_range 8 (stream j) d.r ∧
        c.g = rand_range 8 (stream (j + 1)) d.g ∧
        c.b = rand_range 8 (stream (j + 2)) d.b := by
  intro ls
  induction ls with
  | nil =>
    intro i c hc
    simp [modify_lights_different_colors_cmds] at hc
  | cons l ls ih =>
    intro i c hc
    simp only [modify_lights_different_colors_cmds, List.mem_cons] at hc
    rcases hc with h | h
    · subst h
      exact ⟨rfl, rfl, i, rfl, rfl, rfl⟩
    · exact ih (i + 3) c h

/-- C6: in every cycle of both loop bodies, one time value is sampled from
the timing range; that same value is the task's sleep interval (in ticks)
before the next cycle and, when fade is enabled, every command's
transition time (0 when fade is disabled); every emitted command sets the
light on with a colour built from one sample of each of the r, g, b
ranges. -/
theorem c6_cycle_shape (d : Data) (light_ids : List String)
    (stream : Nat → Nat) (i : Nat) :
    ((modify_lights_same_color_cycle d light_ids stream i).2.1
        = rand_range 16 (stream i) d.time ∧
      (modify_lights_different_colors_cycle d light_ids stream i).2.1
        = rand_range 16 (stream i) d.time) ∧
    (∀ c ∈ (modify_lights_same_color_cycle d light_ids stream i).1,
      c.is_on = true ∧
      c.transition = (if d.fade then rand_range 16 (stream i) d.time else 0) ∧
      ∃ j, c.r = rand_range 8 (stream j) d.r ∧
        c.g = rand_range 8 (stream (j + 1)) d.g ∧
        c.b = rand_range 8 (stream (j + 2)) d.b) ∧
    (∀ c ∈ (modify_lights_different_colors_cycle d light_ids stream i).1,
      c.is_on = true ∧
      c.transition = (if d.fade then rand_range 16 (stream i) d.time else 0) ∧
      ∃ j, c.r = rand_range 8 (stream j) d.r ∧
        c.g = rand_range 8 (stream (j + 1)) d.g ∧
        c.b = rand_range 8 (stream (j + 2)) d.b) := by
  refine ⟨⟨rfl, rfl⟩, ?_, ?_⟩
  · intro c hc
    simp only [modify_lights_same_color_cycle] at hc
    rcases List.mem_map.mp hc with ⟨l, _, rfl⟩
    exact ⟨rfl, rfl, i + 1, rfl, rfl, rfl⟩
  · intro c hc
    simp only [modify_lights_different_colors_cycle] at hc
    exact mldc_cmds_shape d _ stream light_ids (i + 1) c hc

/-- Witness for C6 at the default config, one light, the identity stream. -/
theorem c6_witness :
    ((modify_lights_same_color_cycle Data.default ["1"] id_stream 0).2.1
        = rand_range 16 (id_stream 0) Data.default.time ∧
      (modify_lights_different_colors_cycle Data.default ["1"] id_stream 0).2.1
        = rand_range 16 (id_stream 0) Data.default.time) ∧
    (∀ c ∈ (modify_lights_same_color_cycle Data.default ["1"] id_stream 0).1,
      c.is_on = true ∧
      c.transition
          = (if Data.default.fade then rand_range 16 (id_stream 0) Data.default.time else 0) ∧
      ∃ j, c.r = rand_range 8 (id_stream j) Data.default.r ∧
        c.g = rand_range 8 (id_stream (j + 1)) Data.default.g ∧
        c.b = rand_range 8 (id_stream (j + 2)) Data.default.b) ∧
    (∀ c ∈ (modify_lights_different_colors_cycle Data.default ["1"] id_stream 0).1,
      c.is_on = true ∧
      c.transition
          = (if Data.default.fade then rand_range 16 (id_stream 0) Data.default.time else 0) ∧
      ∃ j, c.r = rand_range 8 (id_stream j) Data.default.r ∧
        c.g = rand_range 8 (id_stream (j + 1)) Data.default.g ∧
        c.b = rand_range 8 (id_stream (j + 2)) Data.default.b) :=
  c6_cycle_shape Data.default ["1"] id_stream 0

/-- The on-light id list inherits distinctness from the light ids. -/
theorem on_ids_nodup (lights : List (String × Bool))
    (h : (lights.map (fun p => p.1)).Nodup) : (on_ids lights).Nodup :=
  List.Nodup.sublist (List.Sublist.map _ (List.filter_sublist _)) h

/-- Membership in the on-light id list means the light is flagged on. -/
theorem mem_on_ids (lights : List (String × Bool)) (l : String) :
    l ∈ on_ids lights ↔ (l, true) ∈ lights := by
  simp only [on_ids, List.mem_map, List.mem_filter]
  constructor
  · rintro ⟨⟨a, b⟩, ⟨hmem, hb⟩, rfl⟩
    simp only at hb
    subst hb
    exact hmem
  · intro h
    exact ⟨(l, true), ⟨h, rfl⟩, rfl⟩

/-- With distinct light ids, an off-light's id never appears in the
on-light id list. -/
theorem not_mem_on_ids_of_off (lights : List (String × Bool)) (l : String)
    (hnd : (lights.map (fun p => p.1)).Nodup) (hoff : (l, false) ∈ lights) :
    l ∉ on_ids lights := by
  intro hmem
  have hon : (l, true) ∈ lights := (mem_on_ids lights l).mp hmem
  have heq : ((l, true) : String × Bool) = (l, false) :=
    List.inj_on_of_nodup_map hnd hon hoff rfl
  simp at heq

/-- Splitting `bound_count` over the head task. -/
theorem bound_count_cons (t : TaskSpec) (ts : List TaskSpec) (l : String) :
    bound_count (t :: ts) l = t.light_ids.count l + bound_count ts l := by
  simp [bound_count]

/-- Binding each id of a list to its own singleton task binds each light as
often as its id occurs in the list. -/
theorem bound_count_singletons (xs : List String) (l : String) :
    bound_count (xs.map fun x => Modulator.new SyncMode.none [x]) l = xs.count l := by
  induction xs with
  | nil => rfl
  | cons x xs ih =>
    rw [List.map_cons, bound_count_cons, ih]
    simp only [Modulator.new]
    rw [List.count_cons, List.count_nil, List.count_cons, Nat.add_comm]
    simp

/-- C3: `rebuild_modulators` fully replaces the running set with the
freshly built one: every light bound by a new task is currently flagged
on; with a bridge present, `SyncMode::None` yields exactly one task per
on-light and any other mode exactly one task covering the whole on-group;
without a bridge no task runs; and, light ids being distinct (they are
HashMap keys in the source), at most one running task is bound to any
given light and none to a light that is flagged off. -/
theorem c3_rebuild (s : AppState)
    (hnd : (s.lights.map (fun p => p.1)).Nodup) :
    (∀ t ∈ (rebuild_modulators s).modulators, ∀ l ∈ t.light_ids,
      (l, true) ∈ s.lights) ∧
    (s.bridge = true → s.sync_mode = SyncMode.none →
      (rebuild_modulators s).modulators
        = (on_ids s.lights).map (fun l => ⟨TaskBody.differentColors, [l]⟩)) ∧
    (s.bridge = true → s.sync_mode ≠ SyncMode.none →
      (rebuild_modulators s).modulators
        = [Modulator.new s.sync_mode (on_ids s.lights)]) ∧
    (s.bridge = false → (rebuild_modulators s).modulators = []) ∧
    (∀ l, bound_count (rebuild_modulators s).modulators l ≤ 1) ∧
    (∀ l, (l, false) ∈ s.lights →
      bound_count (rebuild_modulators s).modulators l = 0) := by
  obtain ⟨lights, mode, bridge, mods⟩ := s
  have hcount : ∀ l, (on_ids lights).count l ≤ 1 := fun l =>
    List.nodup_iff_count_le_one.mp (on_ids_nodup lights hnd) l
  have hoffcount : ∀ l, (l, false) ∈ lights → (on_ids lights).count l = 0 :=
    fun l hoff =>
      List.count_eq_zero.mpr (not_mem_on_ids_of_off lights l hnd hoff)
  cases bridge with
  | false =>
    refine ⟨?_, ?_, ?_, ?_, ?_, ?_⟩ <;>
      simp [rebuild_modulators, bound_count]
  | true =>
    cases mode with
    | none =>
      have hmods : (rebuild_modulators ⟨lights, SyncMode.none, true, mods⟩).modulators
          = (on_ids lights).map (fun l => Modulator.new SyncMode.none [l]) := by
        simp [rebuild_modulators]
      refine ⟨?_, ?_, ?_, ?_, ?_, ?_⟩
      · intro t ht l hl
        rw [hmods] at ht
        rcases List.mem_map.mp ht with ⟨x, hx, rfl⟩
        simp only [Modulator.new, List.mem_singleton] at hl
        subst hl
        exact (mem_on_ids lights l).mp hx
      · intro _ _
        rw [hmods]
        rfl
      · intro _ hne
        exact absurd rfl hne
      · intro h
        exact absurd h (by simp)
      · intro l
        rw [hmods, bound_count_singletons]
        exact hcount l
      · intro l hoff
        rw [hmods, bound_count_singletons]
        exact hoffcount l hoff
    | time =>
      have hmods : (rebuild_modulators ⟨lights, SyncMode.time, true, mods⟩).modulators
          = [⟨TaskBody.differentColors, on_ids lights⟩] := by
        simp [rebuild_modulators, Modulator.new]
      refine ⟨?_, ?_, ?_, ?_, ?_, ?_⟩
      · intro t ht l hl
        rw [hmods, List.mem_singleton] at ht
        subst ht
        exact (mem_on_ids lights l).mp hl
      · intro _ h
        exact absurd h (by simp)
      · intro _ _
        rw [hmods]
        rfl
      · intro h
        exact absurd h (by simp)
      · intro l
        rw [hmods, bound_count_cons]
        simpa [bound_count] using hcount l
      · intro l hoff
        rw [hmods, bound_count_cons]
        simpa [bound_count] using hoffcount l hoff
    | timeAndColor =>
      have hmods : (rebuild_modulators ⟨lights, SyncMode.timeAndColor, true, mods⟩).modulators
          = [⟨TaskBody.sameColor, on_ids lights⟩] := by
        simp [rebuild_modulators, Modulator.new]
      refine ⟨?_, ?_, ?_, ?_, ?_, ?_⟩
      · intro t ht l hl
        rw [hmods, List.mem_singleton] at ht
        subst ht
        exact (mem_on_ids lights l).mp hl
      · intro _ h
        exact absurd h (by simp)
      · intro _ _
        rw [hmods]
        rfl
      · intro h
        exact absurd h (by simp)
      · intro l
        rw [hmods, bound_count_cons]
        simpa [bound_count] using hcount l
      · intro l hoff
        rw [hmods, bound_count_cons]
        simpa [bound_count] using hoffcount l hoff

/-- Witness for C3 at a concrete app state with one on and one off light. -/
theorem c3_witness :
    (∀ t ∈ (rebuild_modulators app_mixed_none).modulators, ∀ l ∈ t.light_ids,
      (l, true) ∈ app_mixed_none.lights) ∧
    (app_mixed_none.bridge = true → app_mixed_none.sync_mode = SyncMode.none →
      (rebuild_modulators app_mixed_none).modulators
        = (on_ids app_mixed_none.lights).map (fun l => ⟨TaskBody.differentColors, [l]⟩)) ∧
    (app_mixed_none.bridge = true → app_mixed_none.sync_mode ≠ SyncMode.none →
      (rebuild_modulators app_mixed_none).modulators
        = [Modulator.new app_mixed_none.sync_mode (on_ids app_mixed_none.lights)]) ∧
    (app_mixed_none.bridge = false → (rebuild_modulators app_mixed_none).modulators = []) ∧
    (∀ l, bound_count (rebuild_modulators app_mixed_none).modulators l ≤ 1) ∧
    (∀ l, (l, false) ∈ app_mixed_none.lights →
      bound_count (rebuild_modulators app_mixed_none).modulators l = 0) :=
  c3_rebuild app_mixed_none (by decide)

/-- C2, counterexample: the claim says the engine in time-only mode behaves
identically to no-synchronization mode for every set of active lights.
With two on-lights, time-only mode spawns a single task bound to both
lights while no-sync mode spawns one task per light, so the resulting
running sets differ. -/
theorem c2_counterexample :
    (rebuild_modulators app_two_time).modulators
      ≠ (rebuild_modulators app_two_none).modulators := by
  decide

/-- C2, amended: in time-only mode `Modulator::new` selects the same loop
body as in no-sync mode (`modify_lights_different_colors`, via the `_`
arm), but `rebuild_modulators` binds all on-lights to a single task
instead of one task per light; consequently one time draw per cycle is
shared by the whole group — every command of a cycle carries the same
transition time and the task sleeps once for all its lights — so the two
modes coincide only up to grouping, not in behaviour, once two or more
lights are on. -/
theorem c2_amended (s : AppState) (hb : s.bridge = true)
    (ht : s.sync_mode = SyncMode.time) :
    (∀ ls, (Modulator.new SyncMode.time ls).body
      = (Modulator.new SyncMode.none ls).body) ∧
    (rebuild_modulators s).modulators
      = [⟨TaskBody.differentColors, on_ids s.lights⟩] ∧
    (∀ d stream i,
      ∀ c1 ∈ (modify_lights_different_colors_cycle d (on_ids s.lights) stream i).1,
        ∀ c2 ∈ (modify_lights_different_colors_cycle d (on_ids s.lights) stream i).1,
          c1.transition = c2.transition ∧
          c1.transition = (if d.fade then rand_range 16 (stream i) d.time else 0)) := by
  obtain ⟨lights, mode, bridge, mods⟩ := s
  simp only at hb ht
  subst hb
  subst ht
  refine ⟨fun ls => rfl, by simp [rebuild_modulators, Modulator.new], ?_⟩
  intro d stream i c1 h1 c2 h2
  simp only [modify_lights_different_colors_cycle] at h1 h2
  have s1 := mldc_cmds_shape d _ stream (on_ids lights) (i + 1) c1 h1
  have s2 := mldc_cmds_shape d _ stream (on_ids lights) (i + 1) c2 h2
  exact ⟨s1.2.1.trans s2.2.1.symm, s1.2.1⟩

/-- Witness for C2's amended statement at the two-on-light time-mode state. -/
theorem c2_amended_witness :
    (∀ ls, (Modulator.new SyncMode.time ls).body
      = (Modulator.new SyncMode.none ls).body) ∧
    (rebuild_modulators app_two_time).modulators
      = [⟨TaskBody.differentColors, on_ids app_two_time.lights⟩] ∧
    (∀ d stream i,
      ∀ c1 ∈ (modify_lights_different_colors_cycle d (on_ids app_two_time.lights) stream i).1,
        ∀ c2 ∈ (modify_lights_different_colors_cycle d (on_ids app_two_time.lights) stream i).1,
          c1.transition = c2.transition ∧
          c1.transition = (if d.fade then rand_range 16 (stream i) d.time else 0)) :=
  c2_amended app_two_time rfl rfl

/-- C10: with a bridge connected and zero lights flagged on, any
synchronized mode (`Time` or `TimeAndColor`) still spawns exactly one
task, bound to the empty light list, whose every cycle samples a time,
dispatches no command, and sleeps for the sampled duration — whereas
`SyncMode::None` spawns no task at all. -/
theorem c10_empty_group (s : AppState) (hb : s.bridge = true)
    (hempty : on_ids s.lights = []) :
    (s.sync_mode ≠ SyncMode.none →
      (rebuild_modulators s).modulators = [Modulator.new s.sync_mode []]) ∧
    (s.sync_mode = SyncMode.none → (rebuild_modulators s).modulators = []) ∧
    (∀ d stream i,
      (modify_lights_different_colors_cycle d [] stream i).1 = [] ∧
      (modify_lights_different_colors_cycle d [] stream i).2.1
          = rand_range 16 (stream i) d.time ∧
      (modify_lights_same_color_cycle d [] stream i).1 = [] ∧
      (modify_lights_same_color_cycle d [] stream i).2.1
          = rand_range 16 (stream i) d.time) := by
  obtain ⟨lights, mode, bridge, mods⟩ := s
  simp only at hb hempty
  subst hb
  refine ⟨?_, ?_, ?_⟩
  · intro hne
    cases mode with
    | none => exact absurd rfl hne
    | time => simp [rebuild_modulators, hempty]
    | timeAndColor => simp [rebuild_modulators, hempty]
  · intro h
    subst h
    simp [rebuild_modulators, hempty]
  · intro d stream i
    exact ⟨rfl, rfl, rfl, rfl⟩

/-- Witness for C10 at a state whose one light is off, in time-only mode. -/
theorem c10_witness :
    (app_off_time.sync_mode ≠ SyncMode.none →
      (rebuild_modulators app_off_time).modulators
        = [Modulator.new app_off_time.sync_mode []]) ∧
    (app_off_time.sync_mode = SyncMode.none →
      (rebuild_modulators app_off_time).modulators = []) ∧
    (∀ d stream i,
      (modify_lights_different_colors_cycle d [] stream i).1 = [] ∧
      (modify_lights_different_colors_cycle d [] stream i).2.1
          = rand_range 16 (stream i) d.time ∧
      (modify_lights_same_color_cycle d [] stream i).1 = [] ∧
      (modify_lights_same_color_cycle d [] stream i).2.1
          = rand_range 16 (stream i) d.time) :=
  c10_empty_group app_off_time rfl (by decide)

/-- C9: one iteration of `modify_lights_same_color` draws a single sample
set — one time, one r, one g, one b, consuming exactly four stream
positions — and dispatches the identical command (same colour, same
transition time) to every light bound to the task. -/
theorem c9_same_color (d : Data) (light_ids : List String)
    (stream : Nat → Nat) (i : Nat) :
    (modify_lights_same_color_cycle d light_ids stream i).1
        = light_ids.map (fun l =>
            ⟨l, true, rand_range 8 (stream (i + 1)) d.r,
              rand_range 8 (stream (i + 2)) d.g,
              rand_range 8 (stream (i + 3)) d.b,
              if d.fade then rand_range 16 (stream i) d.time else 0⟩) ∧
    (modify_lights_same_color_cycle d light_ids stream i).2.2 = i + 4 ∧
    ∀ c1 ∈ (modify_lights_same_color_cycle d light_ids stream i).1,
      ∀ c2 ∈ (modify_lights_same_color_cycle d light_ids stream i).1,
        c1.r = c2.r ∧ c1.g = c2.g ∧ c1.b = c2.b ∧ c1.transition = c2.transition := by
  refine ⟨rfl, rfl, ?_⟩
  intro c1 h1 c2 h2
  simp only [modify_lights_same_color_cycle] at h1 h2
  rcases List.mem_map.mp h1 with ⟨l1, _, rfl⟩
  rcases List.mem_map.mp h2 with ⟨l2, _, rfl⟩
  exact ⟨rfl, rfl, rfl, rfl⟩

/-- Advancing the rng cursor by one cycle consumes `draw_count` stream
positions, independently of the configuration snapshot read that cycle. -/
theorem cycle_of_next (body : TaskBody) (d : Data) (ls : List String)
    (stream : Nat → Nat) (i : Nat) :
    (cycle_of body d ls stream i).2.2 = i + draw_count body ls.length := by
  cases body with
  | sameColor => rfl
  | differentColors =>
    show i + 1 + 3 * ls.length = i + (1 + 3 * ls.length)
    omega

/-- The `m`-th cycle of a bounded run reads exactly the config published
for that cycle and starts at a rng cursor that does not depend on any
config at all. -/
theorem run_cycles_get (body : TaskBody) (cfgs : Nat → Data) (ls : List String)
    (stream : Nat → Nat) :
    ∀ m k i n, m < n →
      (run_cycles body cfgs ls stream k i n).get? m
        = some ((cycle_of body (cfgs (k + m)) ls stream
              (i + draw_count body ls.length * m)).1,
            (cycle_of body (cfgs (k + m)) ls stream
              (i + draw_count body ls.length * m)).2.1) := by
  intro m
  induction m with
  | zero =>
    intro k i n hn
    cases n with
    | zero => omega
    | succ n => simp [run_cycles]
  | succ m ih =>
    intro k i n hn
    cases n with
    | zero => omega
    | succ n =>
      have h1 : (run_cycles body cfgs ls stream k i (n + 1)).get? (m + 1)
          = (run_cycles body cfgs ls stream (k + 1)
              ((cycle_of body (cfgs k) ls stream i).2.2) n).get? m := by
        simp [run_cycles]
      rw [h1, cycle_of_next, ih (k + 1) (i + draw_count body ls.length) n (by omega)]
      have e1 : k + 1 + m = k + (m + 1) := by omega
      have e2 : i + draw_count body ls.length + draw_count body ls.length * m
          = i + draw_count body ls.length * (m + 1) := by ring
      rw [e1, e2]

/-- C4: over a run in which the published config switches from `A` to `B`
at cycle boundary `K`, every cycle's dispatched commands and sleep are
computed from exactly one config snapshot — entirely from `A` before the
boundary and entirely from `B` at or after it.  No cycle mixes the two:
the read lock is held for the whole sampling-and-dispatch block, and the
rng cursor position of each cycle is config-independent. -/
theorem c4_snapshot_per_cycle (body : TaskBody) (A B : Data) (K : Nat)
    (ls : List String) (stream : Nat → Nat) (n k : Nat) (hk : k < n) :
    (run_cycles body (fun j => if j < K then A else B) ls stream 0 0 n).get? k
      = some ((cycle_of body (if k < K then A else B) ls stream
            (draw_count body ls.length * k)).1,
          (cycle_of body (if k < K then A else B) ls stream
            (draw_count body ls.length * k)).2.1) := by
  have h := run_cycles_get body (fun j => if j < K then A else B) ls stream k 0 0 n hk
  simpa using h

/-- Witness for C4: a two-cycle run switching configs at boundary 1; the
second cycle is computed wholly from the new config. -/
theorem c4_witness :
    (run_cycles TaskBody.differentColors (fun j => if j < 1 then Data.default else alt_data)
        ["1"] id_stream 0 0 2).get? 1
      = some ((cycle_of TaskBody.differentColors (if 1 < 1 then Data.default else alt_data)
            ["1"] id_stream (draw_count TaskBody.differentColors (["1"] : List String).length * 1)).1,
          (cycle_of TaskBody.differentColors (if 1 < 1 then Data.default else alt_data)
            ["1"] id_stream (draw_count TaskBody.differentColors (["1"] : List String).length * 1)).2.1) :=
  c4_snapshot_per_cycle TaskBody.differentColors Data.default alt_data 1 ["1"] id_stream 2 1
    (by decide)

/-- One task step preserves the post-cancellation invariant. -/
theorem cancelInv_step (s0 : TState) (k : Nat) (x y : TState)
    (hxy : Step x y) (hx : CancelInv s0 k x) : CancelInv s0 k y := by
  cases hxy with
  | doCycle m c r d =>
    obtain ⟨hc, hrest⟩ := hx
    rcases hrest with ⟨hp, hr, hd, hs⟩ | ⟨hp | hp, _, _⟩ |
      ⟨hs0, hr, ⟨hp, hd⟩ | ⟨hp | hp, _⟩⟩
    · have hp2 : Phase.work m = Phase.work k := hp
      have hd2 : d = s0.dispatched := hd
      obtain rfl : m = k := by injection hp2
      exact ⟨hc, Or.inr (Or.inl ⟨Or.inl rfl, hr, Or.inr ⟨by rw [hd2], hs⟩⟩)⟩
    · exact Phase.noConfusion (show Phase.work m = Phase.sleeping k from hp)
    · exact Phase.noConfusion (show Phase.work m = Phase.stopped from hp)
    · have hp2 : Phase.work m = Phase.work (k + 1) := hp
      obtain rfl : m = k + 1 := by injection hp2
      refine ⟨hc, Or.inr (Or.inr ⟨hs0, hr, Or.inr ⟨Or.inl rfl, ?_⟩⟩)⟩
      rcases hd with hd | ⟨hd, hs⟩
      · have hd2 : d = s0.dispatched := hd
        exact Or.inl (by rw [hd2])
      · have hd2 : d = k :: s0.dispatched := hd
        exact Or.inr ⟨by rw [hd2], hs⟩
    · exact Phase.noConfusion (show Phase.work m = Phase.sleeping (k + 1) from hp)
    · exact Phase.noConfusion (show Phase.work m = Phase.stopped from hp)
  | wake m r d =>
    obtain ⟨hc, _⟩ := hx
    simp at hc
  | signal p r d =>
    obtain ⟨hc, _⟩ := hx
    simp at hc
  | raceWake m d =>
    obtain ⟨hc, hrest⟩ := hx
    rcases hrest with ⟨hp, _, _, _⟩ | ⟨hp | hp, hr, hd⟩ |
      ⟨hs0, hr, ⟨hp, _⟩ | ⟨hp | hp, _⟩⟩
    · exact Phase.noConfusion (show Phase.sleeping m = Phase.work k from hp)
    · have hp2 : Phase.sleeping m = Phase.sleeping k := hp
      obtain rfl : m = k := by injection hp2
      have hs0 : s0.raced = false := by
        have hr2 : false = s0.raced := hr
        exact hr2.symm
      exact ⟨rfl, Or.inr (Or.inr ⟨hs0, rfl, Or.inl ⟨rfl, hd⟩⟩)⟩
    · exact Phase.noConfusion (show Phase.sleeping m = Phase.stopped from hp)
    · exact Phase.noConfusion (show Phase.sleeping m = Phase.work (k + 1) from hp)
    · exact Bool.noConfusion (show false = true from hr)
    · exact Phase.noConfusion (show Phase.sleeping m = Phase.stopped from hp)
  | halt m r d =>
    obtain ⟨hc, hrest⟩ := hx
    rcases hrest with ⟨hp, _, _, _⟩ | ⟨hp | hp, hr, hd⟩ |
      ⟨hs0, hr, ⟨hp, _⟩ | ⟨hp | hp, hd⟩⟩
    · exact Phase.noConfusion (show Phase.sleeping m = Phase.work k from hp)
    · exact ⟨hc, Or.inr (Or.inl ⟨Or.inr rfl, hr, hd⟩)⟩
    · exact Phase.noConfusion (show Phase.sleeping m = Phase.stopped from hp)
    · exact Phase.noConfusion (show Phase.sleeping m = Phase.work (k + 1) from hp)
    · exact ⟨hc, Or.inr (Or.inr ⟨hs0, hr, Or.inr ⟨Or.inr rfl, hd⟩⟩)⟩
    · exact Phase.noConfusion (show Phase.sleeping m = Phase.stopped from hp)

/-- C5, counterexample: the claim says that after the trigger is signalled
no further dispatch occurs beyond the cycle the task is currently in and
the loop exits at its next suspension point without starting another
cycle.  From a task cancelled during cycle 0's sleep whose timer has
already elapsed, `futures::select!`'s pseudo-random poll order may poll
the loop branch before the ready receiver, so one more full cycle runs and
dispatches: the reachable state below has dispatched cycle 1, which is
neither a prior dispatch nor cycle 0's own. -/
theorem c5_counterexample :
    Steps ⟨Phase.sleeping 0, true, false, []⟩ ⟨Phase.sleeping 1, true, true, [1]⟩ ∧
      ¬((1 : Nat) ∈ (TState.mk (Phase.sleeping 0) true false []).dispatched ∨
        ((TState.mk (Phase.sleeping 0) true false []).phase = Phase.work 0 ∧
          (1 : Nat) = 0)) := by
  constructor
  · exact Relation.ReflTransGen.tail
      (Relation.ReflTransGen.tail Relation.ReflTransGen.refl (Step.raceWake 0 []))
      (Step.doCycle 1 true true [])
  · decide

/-- C5, amended: once the one-shot cancellation trigger has been signalled
while the task is in cycle `k` (in its synchronous work block or in its
sleep), the only dispatches that can still occur are cycle `k`'s own (and
that only when the signal arrived during `k`'s work block, which contains
no suspension point) and at most one further cycle `k + 1`, possible only
in the race where `k`'s sleep timer has already elapsed when the select is
re-polled and the loop branch is polled before the ready receiver; the
loop then exits at its next suspension point, and no cycle beyond `k + 1`
ever dispatches. -/
theorem c5_amended_bound (s t : TState) (h : Steps s t)
    (hc : s.cancelled = true) (k : Nat)
    (hp : s.phase = Phase.work k ∨ s.phase = Phase.sleeping k) :
    ∀ j ∈ t.dispatched, j ∈ s.dispatched ∨ (s.phase = Phase.work k ∧ j = k) ∨
      (s.raced = false ∧ j = k + 1) := by
  have h2 : Relation.ReflTransGen Step s t := h
  clear h
  have hinv : CancelInv s k t := by
    induction h2 with
    | refl =>
      rcases hp with hp | hp
      · exact ⟨hc, Or.inl ⟨hp, rfl, rfl, hp⟩⟩
      · exact ⟨hc, Or.inr (Or.inl ⟨Or.inl hp, rfl, Or.inl rfl⟩)⟩
    | tail hst hstep ih => exact cancelInv_step s k _ _ hstep ih
  obtain ⟨_, hrest⟩ := hinv
  rcases hrest with ⟨_, _, hd, _⟩ | ⟨_, _, hd | ⟨hd, hs⟩⟩ |
    ⟨hs0, _, ⟨_, hd | ⟨hd, hs⟩⟩ | ⟨_, hd | ⟨hd, hs⟩⟩⟩
  · intro j hj
    rw [hd] at hj
    exact Or.inl hj
  · intro j hj
    rw [hd] at hj
    exact Or.inl hj
  · intro j hj
    rw [hd] at hj
    rcases List.mem_cons.mp hj with rfl | hj
    · exact Or.inr (Or.inl ⟨hs, rfl⟩)
    · exact Or.inl hj
  · intro j hj
    rw [hd] at hj
    exact Or.inl hj
  · intro j hj
    rw [hd] at hj
    rcases List.mem_cons.mp hj with rfl | hj
    · exact Or.inr (Or.inl ⟨hs, rfl⟩)
    · exact Or.inl hj
  · intro j hj
    rw [hd] at hj
    rcases List.mem_cons.mp hj with rfl | hj
    · exact Or.inr (Or.inr ⟨hs0, rfl⟩)
    · exact Or.inl hj
  · intro j hj
    rw [hd] at hj
    rcases List.mem_cons.mp hj with rfl | hj
    · exact Or.inr (Or.inr ⟨hs0, rfl⟩)
    · rcases List.mem_cons.mp hj with rfl | hj
      · exact Or.inr (Or.inl ⟨hs, rfl⟩)
      · exact Or.inl hj

/-- Witness for C5's amended bound at the racy trace: the extra dispatch of
cycle 1 is accounted for by the one-racy-cycle disjunct. -/
theorem c5_amended_witness :
    (1 : Nat) ∈ (TState.mk (Phase.sleeping 0) true false []).dispatched ∨
      ((TState.mk (Phase.sleeping 0) true false []).phase = Phase.work 0 ∧
        (1 : Nat) = 0) ∨
      ((TState.mk (Phase.sleeping 0) true false []).raced = false ∧
        (1 : Nat) = 0 + 1) := by
  have hsteps : Steps ⟨Phase.sleeping 0, true, false, []⟩
      ⟨Phase.sleeping 1, true, true, [1]⟩ :=
    Relation.ReflTransGen.tail
      (Relation.ReflTransGen.tail Relation.ReflTransGen.refl (Step.raceWake 0 []))
      (Step.doCycle 1 true true [])
  exact c5_amended_bound _ _ hsteps rfl 0 (Or.inr rfl) 1 (by simp)

/-- Witness for C9 at the default config, two lights, the identity stream. -/
theorem c9_witness :
    (modify_lights_same_color_cycle Data.default ["1", "2"] id_stream 0).1
        = (["1", "2"] : List String).map (fun l =>
            ⟨l, true, rand_range 8 (id_stream (0 + 1)) Data.default.r,
              rand_range 8 (id_stream (0 + 2)) Data.default.g,
              rand_range 8 (id_stream (0 + 3)) Data.default.b,
              if Data.default.fade then rand_range 16 (id_stream 0) Data.default.time
              else 0⟩) ∧
    (modify_lights_same_color_cycle Data.default ["1", "2"] id_stream 0).2.2 = 0 + 4 ∧
    ∀ c1 ∈ (modify_lights_same_color_cycle Data.default ["1", "2"] id_stream 0).1,
      ∀ c2 ∈ (modify_lights_same_color_cycle Data.default ["1", "2"] id_stream 0).1,
        c1.r = c2.r ∧ c1.g = c2.g ∧ c1.b = c2.b ∧ c1.transition = c2.transition :=
  c9_same_color Data.default ["1", "2"] id_stream 0
